import Mathlib

/-!
Verification of the chained hash map in `osi/src/hash_map.c`.

Shallow embedding conventions:
* Pointers (keys, data, entry records) are modelled as `Nat`; `0` plays the
  role of `NULL` for data references returned by `hash_map_get`.
* A bucket's chain (`hash_map_bucket_t.list`, a `list_t *`) is
  `Option (List Entry)`: `none` is a bucket whose list pointer is `NULL`,
  `some l` is an allocated chain holding the entries of `l` in list order
  (`list_append` appends at the tail, `list_begin`/`list_next` iterate front
  to back).
* Each entry record carries a back-pointer to its owning map in the C code;
  every entry reachable from a map points back to that same map (it is set
  at the single creation site in `hash_map_set`), so the back-pointer is
  dropped and the owning map's fields are used directly.
* The cleanup protocol `bucket_free_` (invoked by `list_remove` and
  `list_free` through the list's free callback) calls the configured key and
  data free hooks and releases the entry record.  Operations return, besides
  the new map state, the list of entries on which `bucket_free_` ran, in
  invocation order; "the hooks are invoked exactly once for entry e" is
  "`e` occurs exactly once in that list".
* Fallible allocations are explicit `Bool` parameters: `alloc_list` is the
  outcome of `list_new_internal` for a missing chain, `alloc_entry` of the
  entry-record allocation, `alloc_node` of the node allocation inside
  `list_append`.
* `hash_size` and `num_bucket` are `size_t` in C, modelled as `Nat`.  The
  lone subtraction (`hash_map->hash_size--` in `hash_map_erase`) is Nat
  truncated subtraction; it matches the C wrap-around semantics whenever
  `hash_size` is nonzero, which the theorems using it hypothesise.
-/

/-- A `hash_map_entry_t`: caller-owned key and data references (the C
back-pointer to the owning map is dropped, see the header comment). -/
structure Entry where
  key : Nat
  data : Nat
deriving DecidableEq

/-- The `hash_map_t` state: bucket array, size bookkeeping and the
configured hash and key-equality callbacks.  The key/data free hooks do not
influence which entries reach the cleanup protocol, only what the protocol
does with them, so they are not part of the observable state here. -/
structure HashMapT where
  num_bucket : Nat
  hash_fn : Nat → Nat
  keys_are_equal : Nat → Nat → Bool
  bucket : List (Option (List Entry))
  hash_size : Nat

/-- Function `default_key_equality`: pointer equality (`x == y` on the C pointers). -/
def default_key_equality (x y : Nat) : Bool := x == y

/-- Function `hash_map_new_internal` with a zeroed allocator and both allocations
succeeding: every bucket's list pointer is `NULL` and `hash_size` is `0`
(zero-initialised), `keys_are_equal` defaults to `default_key_equality`
when `equality_fn` is `NULL`. -/
def hash_map_new_internal (num_bucket : Nat) (hash_fn : Nat → Nat)
    (equality_fn : Option (Nat → Nat → Bool)) : HashMapT :=
  { num_bucket := num_bucket,
    hash_fn := hash_fn,
    keys_are_equal := equality_fn.getD default_key_equality,
    bucket := List.replicate num_bucket none,
    hash_size := 0 }

/-- Function `find_bucket_entry_`: `NULL` list gives no entry; otherwise scan the
chain front to back for the first entry with
`keys_are_equal(entry->key, key)`. -/
def find_bucket_entry_ (eq : Nat → Nat → Bool) :
    Option (List Entry) → Nat → Option Entry
  | none, _ => none
  | some chain, key => chain.find? (fun e => eq e.key key)

/-- The bucket index `hash_fn(key) % num_bucket` computed by every keyed
operation. -/
def bucketIndex (m : HashMapT) (key : Nat) : Nat :=
  m.hash_fn key % m.num_bucket

/-- Function `hash_map_has_key`. -/
def hash_map_has_key (m : HashMapT) (key : Nat) : Bool :=
  (find_bucket_entry_ m.keys_are_equal
    (m.bucket.getD (bucketIndex m key) none) key).isSome

/-- Function `hash_map_get`: the stored data reference, or `0` (`NULL`) if absent. -/
def hash_map_get (m : HashMapT) (key : Nat) : Nat :=
  match find_bucket_entry_ m.keys_are_equal
      (m.bucket.getD (bucketIndex m key) none) key with
  | some e => e.data
  | none => 0

/-- Function `hash_map_size`. -/
def hash_map_size (m : HashMapT) : Nat := m.hash_size

/-- Function `hash_map_is_empty`. -/
def hash_map_is_empty (m : HashMapT) : Bool := m.hash_size == 0

/-- Function `hash_map_num_buckets`. -/
def hash_map_num_buckets (m : HashMapT) : Nat := m.num_bucket

/-- Result of `hash_map_set`: new state, return value, and the entries on
which the cleanup protocol `bucket_free_` ran. -/
structure SetResult where
  map : HashMapT
  ok : Bool
  freed : List Entry

/-- The part of `hash_map_set` from line 160 on, once the bucket's chain
exists (`m` already holds the chain `chain` at index `hash_key`):
`find_bucket_entry_`, then either `list_remove` of the stale entry (which
runs `bucket_free_` on it) or `hash_size++`, then the entry-record
allocation and `list_append`. -/
def hash_map_set_chain (m : HashMapT) (hash_key key data : Nat)
    (chain : List Entry) (alloc_entry alloc_node : Bool) : SetResult :=
  match chain.find? (fun e => m.keys_are_equal e.key key) with
  | some old =>
    let appended := chain.erase old ++ [⟨key, data⟩]
    if alloc_entry then
      if alloc_node then
        { map := { m with bucket := m.bucket.set hash_key (some appended) },
          ok := true,
          freed := [old] }
      else
        { map := { m with bucket := m.bucket.set hash_key (some (chain.erase old)) },
          ok := false,
          freed := [old] }
    else
      { map := { m with bucket := m.bucket.set hash_key (some (chain.erase old)) },
        ok := false,
        freed := [old] }
  | none =>
    if alloc_entry then
      if alloc_node then
        { map := { m with hash_size := m.hash_size + 1,
                          bucket := m.bucket.set hash_key (some (chain ++ [⟨key, data⟩])) },
          ok := true,
          freed := [] }
      else
        { map := { m with hash_size := m.hash_size + 1 },
          ok := false,
          freed := [] }
    else
      { map := { m with hash_size := m.hash_size + 1 },
        ok := false,
        freed := [] }

/-- Function `hash_map_set`: lazily allocate the bucket's chain (failure returns
`false` with no state change), then `hash_map_set_chain`. -/
def hash_map_set (m : HashMapT) (key data : Nat)
    (alloc_list alloc_entry alloc_node : Bool) : SetResult :=
  let hash_key := bucketIndex m key
  match m.bucket.getD hash_key none with
  | none =>
    if alloc_list then
      hash_map_set_chain { m with bucket := m.bucket.set hash_key (some []) }
        hash_key key data [] alloc_entry alloc_node
    else { map := m, ok := false, freed := [] }
  | some chain =>
    hash_map_set_chain m hash_key key data chain alloc_entry alloc_node

/-- Result of `hash_map_erase`: new state, return value, entries freed
through the cleanup protocol. -/
structure EraseResult where
  map : HashMapT
  removed : Bool
  freed : List Entry

/-- Function `hash_map_erase`: find the entry in its bucket's chain; if absent
return `false` untouched, else `hash_size--` and `list_remove` (which runs
`bucket_free_` on the removed entry and returns `true`). -/
def hash_map_erase (m : HashMapT) (key : Nat) : EraseResult :=
  let hash_key := bucketIndex m key
  match m.bucket.getD hash_key none with
  | none => { map := m, removed := false, freed := [] }
  | some chain =>
    match chain.find? (fun e => m.keys_are_equal e.key key) with
    | none => { map := m, removed := false, freed := [] }
    | some e =>
      { map := { m with hash_size := m.hash_size - 1,
                        bucket := m.bucket.set hash_key (some (chain.erase e)) },
        removed := true,
        freed := [e] }

/-- Result of `hash_map_clear`: new state and entries freed through the
cleanup protocol. -/
structure ClearResult where
  map : HashMapT
  freed : List Entry

/-- Function `hash_map_clear`: `list_free` every non-`NULL` chain (running
`bucket_free_` on each contained entry, front to back, buckets in index
order) and reset the list pointers to `NULL`.  The source does not touch
`hash_size`. -/
def hash_map_clear (m : HashMapT) : ClearResult :=
  { map := { m with bucket := m.bucket.map (fun _ => none) },
    freed := (m.bucket.map (fun b => b.getD [])).flatten }

/-- All live entries of the map: the bucket chains flattened in bucket-index
order (a `NULL` chain contributing nothing), each chain front to back. -/
def allEntries (m : HashMapT) : List Entry :=
  (m.bucket.map (fun b => b.getD [])).flatten

/-- The inner loop of `hash_map_foreach` over one chain: visit entries
front to back until the callback returns `false`.  Returns the visited
entries in order and whether iteration may continue to later buckets. -/
def foreach_chain (cb : Entry → Bool) : List Entry → List Entry × Bool
  | [] => ([], true)
  | e :: rest =>
    if cb e then
      let r := foreach_chain cb rest
      (e :: r.1, r.2)
    else ([e], false)

/-- The outer loop of `hash_map_foreach` over the bucket array: skip `NULL`
chains, and stop the whole iteration once a callback returns `false`. -/
def foreach_buckets (cb : Entry → Bool) : List (Option (List Entry)) → List Entry
  | [] => []
  | none :: rest => foreach_buckets cb rest
  | some chain :: rest =>
    let r := foreach_chain cb chain
    if r.2 then r.1 ++ foreach_buckets cb rest else r.1

/-- Function `hash_map_foreach`, returning the entries passed to the callback in
invocation order (the C `context` argument is folded into the callback). -/
def hash_map_foreach (m : HashMapT) (cb : Entry → Bool) : List Entry :=
  foreach_buckets cb m.bucket

/-! ### Supporting lemmas -/

/-- Setting an index of a list to the value it already holds is the
identity. -/
lemma set_self_eq {α : Type} (l : List α) (i : Nat) (h : i < l.length) :
    l.set i l[i] = l := by
  apply List.ext_getElem?
  intro n
  by_cases hn : n = i
  · subst hn; simp [List.getElem?_set_self h]
  · simp [List.getElem?_set_ne (fun hh => hn hh.symm)]

/-- Every entry of the chain stored at an in-range bucket index is a live
entry of the map. -/
lemma mem_allEntries_of_chain {m : HashMapT} {i : Nat} {chain : List Entry}
    {e : Entry} (hi : i < m.bucket.length)
    (hc : m.bucket.getD i none = some chain) (he : e ∈ chain) :
    e ∈ allEntries m := by
  unfold allEntries
  rw [List.mem_flatten]
  refine ⟨chain, ?_, he⟩
  rw [List.getD_eq_getElem _ _ hi] at hc
  have hmem : some chain ∈ m.bucket := hc ▸ List.getElem_mem hi
  have hmap := List.mem_map_of_mem (fun b => b.getD ([] : List Entry)) hmem
  simpa using hmap

/-- Once the entry returned by `find?` is erased from a chain in which at
most one entry matches the key, no matching entry remains. -/
lemma erase_no_match {eqf : Nat → Nat → Bool} {chain : List Entry}
    {key : Nat} {old : Entry}
    (hfound : chain.find? (fun e => eqf e.key key) = some old)
    (huniq : chain.countP (fun e => eqf e.key key) ≤ 1) :
    ∀ e ∈ chain.erase old, eqf e.key key = false := by
  have hmem := List.mem_of_find?_eq_some hfound
  have hp := List.find?_some hfound
  have hperm := List.perm_cons_erase hmem
  have hcount := hperm.countP_eq (fun e => eqf e.key key)
  rw [List.countP_cons_of_pos (fun e => eqf e.key key) (chain.erase old)
    (by simpa using hp)] at hcount
  have h0 : (chain.erase old).countP (fun e => eqf e.key key) = 0 := by omega
  intro e he
  have := List.countP_eq_zero.1 h0 e he
  simpa using this

/-- Appending a fresh entry for `key` behind a chain with no matching
entry makes the fresh entry the one `find?` returns, provided the equality
predicate relates `key` to itself. -/
lemma find?_append_new {eqf : Nat → Nat → Bool} {chain1 : List Entry}
    {key data : Nat} (hnone : ∀ e ∈ chain1, eqf e.key key = false)
    (hrefl : eqf key key = true) :
    (chain1 ++ [⟨key, data⟩] : List Entry).find? (fun e => eqf e.key key)
      = some ⟨key, data⟩ := by
  rw [List.find?_append]
  have h1 : chain1.find? (fun e => eqf e.key key) = none :=
    List.find?_eq_none.2 (fun x hx => by simp [hnone x hx])
  rw [h1]
  simp [List.find?_cons, hrefl]

/-- The entries a run of the foreach loops visits over the flattened entry
list `l`: the longest all-accepted front of `l`, plus the entry on which the
callback first returned `false`, if any. -/
def visitList (cb : Entry → Bool) (l : List Entry) : List Entry :=
  l.takeWhile cb ++ (l.dropWhile cb).take 1

/-- When the callback accepts the whole list, `visitList` is the list. -/
lemma visitList_of_all {cb : Entry → Bool} {l : List Entry}
    (h : l.all cb = true) : visitList cb l = l := by
  unfold visitList
  rw [List.takeWhile_eq_self_iff.2 (List.all_eq_true.1 h),
    List.dropWhile_eq_nil_iff.2 (List.all_eq_true.1 h)]
  simp

/-- Value of `visitList` over an appended list: the whole first part then the second
part's visits if the first part is fully accepted, else just the first
part's visits. -/
lemma visitList_append (cb : Entry → Bool) (l1 l2 : List Entry) :
    visitList cb (l1 ++ l2)
      = if l1.all cb then l1 ++ visitList cb l2 else visitList cb l1 := by
  induction l1 with
  | nil => simp [visitList]
  | cons a l1 ih =>
    by_cases ha : cb a
    · have hcons : (a :: l1).all cb = l1.all cb := by simp [ha]
      by_cases hall : l1.all cb
      · simp only [List.cons_append, visitList, List.takeWhile_cons, ha,
          List.dropWhile_cons, hcons, hall, if_true]
        have := ih
        simp only [visitList, hall, if_true] at this
        simp [this]
      · simp only [List.cons_append, visitList, List.takeWhile_cons, ha,
          List.dropWhile_cons, hcons, hall, if_false]
        have := ih
        simp only [visitList, hall, if_false] at this
        simp [this]
    · simp [visitList, List.takeWhile_cons, List.dropWhile_cons, ha]

/-- The inner foreach loop visits `visitList` of the chain and continues
iff the callback accepted every entry. -/
lemma foreach_chain_eq (cb : Entry → Bool) (l : List Entry) :
    foreach_chain cb l = (visitList cb l, l.all cb) := by
  induction l with
  | nil => simp [foreach_chain, visitList]
  | cons e rest ih =>
    by_cases h : cb e
    · simp [foreach_chain, h, ih, visitList, List.takeWhile_cons,
        List.dropWhile_cons]
    · simp [foreach_chain, h, visitList, List.takeWhile_cons,
        List.dropWhile_cons]

/-- The outer foreach loop visits `visitList` of the flattened bucket
chains. -/
lemma foreach_buckets_eq (cb : Entry → Bool)
    (bs : List (Option (List Entry))) :
    foreach_buckets cb bs
      = visitList cb ((bs.map (fun b => b.getD [])).flatten) := by
  induction bs with
  | nil => simp [foreach_buckets, visitList]
  | cons b rest ih =>
    cases b with
    | none => simpa [foreach_buckets] using ih
    | some chain =>
      simp only [foreach_buckets, foreach_chain_eq, List.map_cons,
        Option.getD_some, List.flatten_cons, visitList_append]
      by_cases hall : chain.all cb
      · simp [hall, visitList_of_all hall, ih]
      · simp [hall]

/-! ### Concrete sample states used by evidence and witness theorems -/

/-- A freshly constructed map with one bucket and the identity hash. -/
def sampleFresh : HashMapT := hash_map_new_internal 1 (fun k => k) none

/-- State `sampleFresh` after a successful `hash_map_set(5, 7)`. -/
def sampleOne : HashMapT := (hash_map_set sampleFresh 5 7 true true true).map

/-- A freshly constructed two-bucket map after a successful
`hash_map_set(1, 7)`. -/
def sampleTwoBucket : HashMapT :=
  (hash_map_set (hash_map_new_internal 2 (fun k => k) none) 1 7
    true true true).map

/-- A one-bucket map holding the single entry `(5, 7)`. -/
def sampleMapOne : HashMapT :=
  { num_bucket := 1, hash_fn := fun k => k,
    keys_are_equal := default_key_equality,
    bucket := [some [Entry.mk 5 7]], hash_size := 1 }

/-- A one-bucket map holding the colliding entries `(5, 7)` and `(9, 1)`. -/
def sampleMapTwo : HashMapT :=
  { num_bucket := 1, hash_fn := fun k => k,
    keys_are_equal := default_key_equality,
    bucket := [some [Entry.mk 5 7, Entry.mk 9 1]], hash_size := 2 }

/-! ### Claim theorems -/

/-- Claim C1: the source refutes the claim's size clause.  On the
one-bucket map holding one entry, `hash_map_clear` does make `has_key`
false for the previously-present key and leaves every bucket's chain
absent, but `hash_map_size` stays `1` whereas a freshly constructed map
with the same configuration has size `0`: `hash_map_clear` never resets
`hash_size`, contradicting the source's own comment that clear returns the
map to the same state it was in after `hash_map_new`. -/
theorem clear_does_not_reset_size :
    hash_map_size (hash_map_clear sampleOne).map = 1 ∧
    hash_map_has_key (hash_map_clear sampleOne).map 5 = false ∧
    (hash_map_clear sampleOne).map.bucket = [none] ∧
    hash_map_size (hash_map_new_internal 1 (fun k => k) none) = 0 :=
  ⟨rfl, rfl, rfl, rfl⟩

/-- Claim C2: the source refutes the invariant on a reachable state.  On
the two-bucket map reached by `new`; `set(1, 7)`, `hash_size` equals the
total entry count (`1`), but after the further `hash_map_clear` every
chain is gone while `hash_size` is still `1`: clear does not preserve the
claimed invariant (the bucket count, by contrast, stays nonzero). -/
theorem clear_breaks_size_invariant :
    hash_map_size sampleTwoBucket = (allEntries sampleTwoBucket).length ∧
    hash_map_size (hash_map_clear sampleTwoBucket).map = 1 ∧
    allEntries (hash_map_clear sampleTwoBucket).map = [] ∧
    hash_map_num_buckets (hash_map_clear sampleTwoBucket).map = 2 :=
  ⟨rfl, rfl, rfl, rfl⟩

/-- Claim C8: confirmed.  A foreach run visits exactly `visitList` of the
flattened bucket chains (buckets in index-ascending order, each chain front
to back, i.e. insertion order): with an always-true callback `visitList` is
the whole live-entry list, so every live entry is visited exactly once in
that order; once an invocation returns false the visited list ends at that
entry, so no further entry of the current or of any later bucket is
visited; and on an empty map `visitList` of `[]` is `[]`, so the callback
runs zero times. -/
theorem foreach_visit_order (m : HashMapT) (cb : Entry → Bool) :
    hash_map_foreach m cb = visitList cb (allEntries m) :=
  foreach_buckets_eq cb m.bucket

/-- Installing a fresh empty chain into a bucket whose list pointer was
`NULL` does not change the live entries. -/
lemma allEntries_set_empty_chain {m : HashMapT} {i : Nat}
    (h : m.bucket.getD i none = none) :
    allEntries { m with bucket := m.bucket.set i (some []) } = allEntries m := by
  unfold allEntries
  by_cases hi : i < m.bucket.length
  · have hget : m.bucket[i] = none := by
      rw [List.getD_eq_getElem _ _ hi] at h; exact h
    have hmaplen : i < (m.bucket.map (fun b => b.getD ([] : List Entry))).length := by
      simpa using hi
    have hel : (m.bucket.map (fun b => b.getD ([] : List Entry)))[i] = [] := by
      rw [List.getElem_map, hget]
      rfl
    have hself := set_self_eq (m.bucket.map (fun b => b.getD ([] : List Entry))) i hmaplen
    rw [hel] at hself
    show ((m.bucket.set i (some [])).map (fun b => b.getD [])).flatten
      = (m.bucket.map (fun b => b.getD [])).flatten
    rw [List.map_set]
    have hred : ((some ([] : List Entry)).getD []) = [] := rfl
    rw [hred, hself]
  · show ((m.bucket.set i (some [])).map (fun b => b.getD [])).flatten
      = (m.bucket.map (fun b => b.getD [])).flatten
    rw [List.set_eq_of_length_le (le_of_not_lt hi)]

/-- Claim C3: confirmed.  If the key is absent (the entry the claim calls
"not already present") and the allocation of the new entry record fails,
`hash_map_set` returns failure, yet `hash_size` has already been
incremented by the not-found branch and is not rolled back: the counter
exceeds the unchanged live-entry population and the key is still absent,
so the counter counts an entry that was never stored. -/
theorem set_alloc_failure_leaks_count (m : HashMapT) (key data : Nat)
    (alloc_node : Bool) (habsent : hash_map_has_key m key = false) :
    (hash_map_set m key data true false alloc_node).ok = false ∧
    hash_map_size (hash_map_set m key data true false alloc_node).map
      = hash_map_size m + 1 ∧
    allEntries (hash_map_set m key data true false alloc_node).map
      = allEntries m ∧
    hash_map_has_key (hash_map_set m key data true false alloc_node).map key
      = false := by
  have hnone : find_bucket_entry_ m.keys_are_equal
      (m.bucket.getD (bucketIndex m key) none) key = none := by
    unfold hash_map_has_key at habsent
    cases hfe : find_bucket_entry_ m.keys_are_equal
        (m.bucket.getD (bucketIndex m key) none) key with
    | none => rfl
    | some e => rw [hfe] at habsent; simp at habsent
  cases hb : m.bucket.getD (bucketIndex m key) none with
  | none =>
    have hstep : hash_map_set m key data true false alloc_node =
        { map := { m with hash_size := m.hash_size + 1,
                          bucket := m.bucket.set (bucketIndex m key) (some []) },
          ok := false, freed := [] } := by
      have hb' : m.bucket[bucketIndex m key]?.getD none = none := by
        rw [← List.getD_eq_getElem?_getD]; exact hb
      simp [hash_map_set, hb', hash_map_set_chain]
    rw [hstep]
    refine ⟨rfl, rfl, allEntries_set_empty_chain hb, ?_⟩
    by_cases hi : bucketIndex m key < m.bucket.length
    · have hget : ((m.bucket.set (bucketIndex m key) (some [])).getD
          (bucketIndex m key) none) = some [] := by
        rw [List.getD_eq_getElem?_getD,
          List.getElem?_set_self (by simpa using hi)]
        rfl
      show (find_bucket_entry_ m.keys_are_equal
        ((m.bucket.set (bucketIndex m key) (some [])).getD
          (bucketIndex m key) none) key).isSome = false
      rw [hget]
      rfl
    · have hsame : m.bucket.set (bucketIndex m key) (some []) = m.bucket :=
        List.set_eq_of_length_le (le_of_not_lt hi)
      show (find_bucket_entry_ m.keys_are_equal
        ((m.bucket.set (bucketIndex m key) (some [])).getD
          (bucketIndex m key) none) key).isSome = false
      rw [hsame, hb]
      rfl
  | some chain =>
    have hfind : chain.find? (fun e => m.keys_are_equal e.key key) = none := by
      rw [hb] at hnone
      simpa [find_bucket_entry_] using hnone
    have hstep : hash_map_set m key data true false alloc_node =
        { map := { m with hash_size := m.hash_size + 1 },
          ok := false, freed := [] } := by
      have hb' : m.bucket[bucketIndex m key]?.getD none = some chain := by
        rw [← List.getD_eq_getElem?_getD]; exact hb
      simp [hash_map_set, hb', hash_map_set_chain, hfind]
    rw [hstep]
    refine ⟨rfl, rfl, rfl, ?_⟩
    show (find_bucket_entry_ m.keys_are_equal
      (m.bucket.getD (bucketIndex m key) none) key).isSome = false
    rw [hnone]
    rfl

/-- Witness for C3: on the fresh one-bucket map, setting key `0` with data
`1` under a failing entry-record allocation returns failure, leaves the
counter at `1` with no live entry, and the key absent. -/
theorem set_alloc_failure_leaks_count_witness :
    (hash_map_set sampleFresh 0 1 true false true).ok = false ∧
    hash_map_size (hash_map_set sampleFresh 0 1 true false true).map
      = hash_map_size sampleFresh + 1 ∧
    allEntries (hash_map_set sampleFresh 0 1 true false true).map
      = allEntries sampleFresh ∧
    hash_map_has_key (hash_map_set sampleFresh 0 1 true false true).map 0
      = false :=
  set_alloc_failure_leaks_count sampleFresh 0 1 true (by decide)

/-- Computing `hash_map_get` through the chain stored at the key's bucket. -/
lemma hash_map_get_eq_of_chain (m : HashMapT) (key : Nat) (chain : List Entry)
    (hc : m.bucket.getD (bucketIndex m key) none = some chain) :
    hash_map_get m key
      = (match chain.find? (fun e => m.keys_are_equal e.key key) with
         | some e => e.data
         | none => 0) := by
  unfold hash_map_get
  rw [hc]
  rfl

/-- Computing `hash_map_has_key` through the chain stored at the key's bucket. -/
lemma hash_map_has_key_eq_of_chain (m : HashMapT) (key : Nat)
    (chain : List Entry)
    (hc : m.bucket.getD (bucketIndex m key) none = some chain) :
    hash_map_has_key m key
      = (chain.find? (fun e => m.keys_are_equal e.key key)).isSome := by
  unfold hash_map_has_key
  rw [hc]
  rfl

/-- Claim C4: confirmed.  When the key is already present in its bucket's
chain (under the configured equality predicate, assumed to be reflexive at
the key and to identify at most one chain entry), a fully successful
`hash_map_set` returns true, a subsequent `hash_map_get` returns the new
data reference, `hash_map_size` is unchanged, and the cleanup protocol ran
exactly once, on the replaced entry (its old key and old data). -/
theorem set_replaces_in_place (m : HashMapT) (key data : Nat)
    (chain : List Entry) (old : Entry)
    (hidx : bucketIndex m key < m.bucket.length)
    (hchain : m.bucket.getD (bucketIndex m key) none = some chain)
    (hfound : chain.find? (fun e => m.keys_are_equal e.key key) = some old)
    (huniq : chain.countP (fun e => m.keys_are_equal e.key key) ≤ 1)
    (hrefl : m.keys_are_equal key key = true) :
    (hash_map_set m key data true true true).ok = true ∧
    hash_map_get (hash_map_set m key data true true true).map key = data ∧
    hash_map_size (hash_map_set m key data true true true).map
      = hash_map_size m ∧
    (hash_map_set m key data true true true).freed = [old] := by
  have hb' : m.bucket[bucketIndex m key]?.getD none = some chain := by
    rw [← List.getD_eq_getElem?_getD]; exact hchain
  have hstep : hash_map_set m key data true true true = { map := { m with bucket := m.bucket.set (bucketIndex m key) (some (chain.erase old ++ [⟨key, data⟩])) }, ok := true, freed := [old] } := by
    simp [hash_map_set, hb', hash_map_set_chain, hfound]
  rw [hstep]
  dsimp only
  refine ⟨rfl, ?_, rfl, rfl⟩
  have hget : (m.bucket.set (bucketIndex m key) (some (chain.erase old ++ [⟨key, data⟩]))).getD (bucketIndex m key) none = some (chain.erase old ++ [⟨key, data⟩]) := by
    rw [List.getD_eq_getElem?_getD,
      List.getElem?_set_self (by simpa using hidx)]
    rfl
  rw [hash_map_get_eq_of_chain { m with bucket := m.bucket.set (bucketIndex m key) (some (chain.erase old ++ [Entry.mk key data])) } key (chain.erase old ++ [Entry.mk key data]) hget]
  dsimp only
  rw [find?_append_new (erase_no_match hfound huniq) hrefl]

/-- Witness for C4: replacing the data of present key `5` (old data `7`)
with `9` in the one-entry sample map succeeds, `get` returns `9`, the size
stays `1`, and exactly the old entry went through the cleanup protocol. -/
theorem set_replaces_in_place_witness :
    (hash_map_set sampleMapOne 5 9 true true true).ok = true ∧
    hash_map_get (hash_map_set sampleMapOne 5 9 true true true).map 5 = 9 ∧
    hash_map_size (hash_map_set sampleMapOne 5 9 true true true).map
      = hash_map_size sampleMapOne ∧
    (hash_map_set sampleMapOne 5 9 true true true).freed = [Entry.mk 5 7] :=
  set_replaces_in_place sampleMapOne 5 9 [Entry.mk 5 7] (Entry.mk 5 7)
    (by decide) rfl (by decide) (by decide) (by decide)

/-- Claim C5: confirmed.  Erasing a key present in its bucket's chain
(with at most one matching chain entry and, per the reachable-state
invariant, a nonzero counter) returns true, decrements `hash_map_size` by
exactly one, makes `hash_map_has_key` false for that key, and runs the
cleanup protocol exactly once, on the removed entry. -/
theorem erase_present_key (m : HashMapT) (key : Nat)
    (chain : List Entry) (old : Entry)
    (hidx : bucketIndex m key < m.bucket.length)
    (hchain : m.bucket.getD (bucketIndex m key) none = some chain)
    (hfound : chain.find? (fun e => m.keys_are_equal e.key key) = some old)
    (huniq : chain.countP (fun e => m.keys_are_equal e.key key) ≤ 1)
    (hsz : 1 ≤ m.hash_size) :
    (hash_map_erase m key).removed = true ∧
    hash_map_size (hash_map_erase m key).map + 1 = hash_map_size m ∧
    hash_map_has_key (hash_map_erase m key).map key = false ∧
    (hash_map_erase m key).freed = [old] := by
  have hb' : m.bucket[bucketIndex m key]?.getD none = some chain := by
    rw [← List.getD_eq_getElem?_getD]; exact hchain
  have hstep : hash_map_erase m key = { map := { m with hash_size := m.hash_size - 1, bucket := m.bucket.set (bucketIndex m key) (some (chain.erase old)) }, removed := true, freed := [old] } := by
    simp [hash_map_erase, hb', hfound]
  rw [hstep]
  dsimp only
  refine ⟨rfl, by unfold hash_map_size; dsimp only; omega, ?_, rfl⟩
  have hget : (m.bucket.set (bucketIndex m key) (some (chain.erase old))).getD (bucketIndex m key) none = some (chain.erase old) := by
    rw [List.getD_eq_getElem?_getD,
      List.getElem?_set_self (by simpa using hidx)]
    rfl
  rw [hash_map_has_key_eq_of_chain { m with hash_size := m.hash_size - 1, bucket := m.bucket.set (bucketIndex m key) (some (chain.erase old)) } key (chain.erase old) hget]
  dsimp only
  rw [List.find?_eq_none.2
    (fun x hx => by simp [erase_no_match hfound huniq x hx])]
  rfl

/-- Witness for C5: erasing present key `5` from the one-entry sample map
returns true, drops the size from `1` to `0`, makes the key absent, and
runs the cleanup protocol exactly on the removed entry. -/
theorem erase_present_key_witness :
    (hash_map_erase sampleMapOne 5).removed = true ∧
    hash_map_size (hash_map_erase sampleMapOne 5).map + 1
      = hash_map_size sampleMapOne ∧
    hash_map_has_key (hash_map_erase sampleMapOne 5).map 5 = false ∧
    (hash_map_erase sampleMapOne 5).freed = [Entry.mk 5 7] :=
  erase_present_key sampleMapOne 5 [Entry.mk 5 7] (Entry.mk 5 7)
    (by decide) rfl (by decide) (by decide) (by decide)

/-- Claim C6: confirmed.  Erasing a key absent from its bucket's chain
under the configured equality predicate returns false and leaves the whole
map state untouched: no counter change, no chain change, and no entry went
through the cleanup protocol. -/
theorem erase_absent_key (m : HashMapT) (key : Nat)
    (habsent : hash_map_has_key m key = false) :
    hash_map_erase m key = { map := m, removed := false, freed := [] } := by
  have hnone : find_bucket_entry_ m.keys_are_equal
      (m.bucket.getD (bucketIndex m key) none) key = none := by
    unfold hash_map_has_key at habsent
    cases hfe : find_bucket_entry_ m.keys_are_equal
        (m.bucket.getD (bucketIndex m key) none) key with
    | none => rfl
    | some e => rw [hfe] at habsent; simp at habsent
  cases hb : m.bucket.getD (bucketIndex m key) none with
  | none =>
    have hb' : m.bucket[bucketIndex m key]?.getD none = none := by
      rw [← List.getD_eq_getElem?_getD]; exact hb
    simp [hash_map_erase, hb']
  | some chain =>
    have hb' : m.bucket[bucketIndex m key]?.getD none = some chain := by
      rw [← List.getD_eq_getElem?_getD]; exact hb
    have hfind : chain.find? (fun e => m.keys_are_equal e.key key) = none := by
      rw [hb] at hnone
      simpa [find_bucket_entry_] using hnone
    simp [hash_map_erase, hb', hfind]

/-- Witness for C6: erasing absent key `3` from the one-entry sample map
returns false and leaves the map exactly as it was, freeing nothing. -/
theorem erase_absent_key_witness :
    hash_map_erase sampleMapOne 3
      = { map := sampleMapOne, removed := false, freed := [] } :=
  erase_absent_key sampleMapOne 3 (by decide)

/-- Claim C7: confirmed.  A fully successful `hash_map_set` of `(key,
data)` followed immediately by `hash_map_get` of that key returns exactly
the stored data reference, on every bucket state (no chain, insert into an
existing chain, or replacement), provided the configured equality
predicate is reflexive at the key and matches at most one entry of the
bucket's chain. -/
theorem set_get_roundtrip (m : HashMapT) (key data : Nat)
    (hidx : bucketIndex m key < m.bucket.length)
    (huniq : ((m.bucket.getD (bucketIndex m key) none).getD []).countP
      (fun e => m.keys_are_equal e.key key) ≤ 1)
    (hrefl : m.keys_are_equal key key = true) :
    (hash_map_set m key data true true true).ok = true ∧
    hash_map_get (hash_map_set m key data true true true).map key = data := by
  cases hb : m.bucket.getD (bucketIndex m key) none with
  | none =>
    have hb' : m.bucket[bucketIndex m key]?.getD none = none := by
      rw [← List.getD_eq_getElem?_getD]; exact hb
    have hstep : hash_map_set m key data true true true = { map := { m with hash_size := m.hash_size + 1, bucket := m.bucket.set (bucketIndex m key) (some [Entry.mk key data]) }, ok := true, freed := [] } := by
      simp [hash_map_set, hb', hash_map_set_chain, List.set_set]
    rw [hstep]
    dsimp only
    refine ⟨rfl, ?_⟩
    have hget : (m.bucket.set (bucketIndex m key) (some [Entry.mk key data])).getD (bucketIndex m key) none = some [Entry.mk key data] := by
      rw [List.getD_eq_getElem?_getD,
        List.getElem?_set_self (by simpa using hidx)]
      rfl
    rw [hash_map_get_eq_of_chain { m with hash_size := m.hash_size + 1, bucket := m.bucket.set (bucketIndex m key) (some [Entry.mk key data]) } key [Entry.mk key data] hget]
    dsimp only
    simp [List.find?_cons, hrefl]
  | some chain =>
    have hb' : m.bucket[bucketIndex m key]?.getD none = some chain := by
      rw [← List.getD_eq_getElem?_getD]; exact hb
    rw [hb] at huniq
    cases hf : chain.find? (fun e => m.keys_are_equal e.key key) with
    | some old =>
      have huniq' : chain.countP (fun e => m.keys_are_equal e.key key) ≤ 1 := by
        simpa using huniq
      have hstep : hash_map_set m key data true true true = { map := { m with bucket := m.bucket.set (bucketIndex m key) (some (chain.erase old ++ [Entry.mk key data])) }, ok := true, freed := [old] } := by
        simp [hash_map_set, hb', hash_map_set_chain, hf]
      rw [hstep]
      dsimp only
      refine ⟨rfl, ?_⟩
      have hget : (m.bucket.set (bucketIndex m key) (some (chain.erase old ++ [Entry.mk key data]))).getD (bucketIndex m key) none = some (chain.erase old ++ [Entry.mk key data]) := by
        rw [List.getD_eq_getElem?_getD,
          List.getElem?_set_self (by simpa using hidx)]
        rfl
      rw [hash_map_get_eq_of_chain { m with bucket := m.bucket.set (bucketIndex m key) (some (chain.erase old ++ [Entry.mk key data])) } key (chain.erase old ++ [Entry.mk key data]) hget]
      dsimp only
      rw [find?_append_new (erase_no_match hf huniq') hrefl]
    | none =>
      have hstep : hash_map_set m key data true true true = { map := { m with hash_size := m.hash_size + 1, bucket := m.bucket.set (bucketIndex m key) (some (chain ++ [Entry.mk key data])) }, ok := true, freed := [] } := by
        simp [hash_map_set, hb', hash_map_set_chain, hf]
      rw [hstep]
      dsimp only
      refine ⟨rfl, ?_⟩
      have hget : (m.bucket.set (bucketIndex m key) (some (chain ++ [Entry.mk key data]))).getD (bucketIndex m key) none = some (chain ++ [Entry.mk key data]) := by
        rw [List.getD_eq_getElem?_getD,
          List.getElem?_set_self (by simpa using hidx)]
        rfl
      rw [hash_map_get_eq_of_chain { m with hash_size := m.hash_size + 1, bucket := m.bucket.set (bucketIndex m key) (some (chain ++ [Entry.mk key data])) } key (chain ++ [Entry.mk key data]) hget]
      dsimp only
      have hnomatch : ∀ e ∈ chain, m.keys_are_equal e.key key = false := by
        intro e he
        have := List.find?_eq_none.1 hf e he
        simpa using this
      rw [find?_append_new hnomatch hrefl]

/-- Witness for C7: inserting `(4, 6)` into the fresh one-bucket map
succeeds and `get 4` returns exactly `6`. -/
theorem set_get_roundtrip_witness :
    (hash_map_set sampleFresh 4 6 true true true).ok = true ∧
    hash_map_get (hash_map_set sampleFresh 4 6 true true true).map 4 = 6 :=
  set_get_roundtrip sampleFresh 4 6 (by decide) (by decide) (by decide)

/-- Claim C9: confirmed.  When every stored data reference is non-null,
`hash_map_has_key` is true exactly when `hash_map_get` returns a
non-null result; both are computed through the same bucket index and the
same `find_bucket_entry_` chain search and, being pure functions of the
map state here, neither mutates the map. -/
theorem has_key_iff_get_nonnull (m : HashMapT) (key : Nat)
    (hdata : ∀ e ∈ allEntries m, e.data ≠ 0) :
    hash_map_has_key m key = true ↔ hash_map_get m key ≠ 0 := by
  cases hb : m.bucket.getD (bucketIndex m key) none with
  | none =>
    unfold hash_map_has_key hash_map_get
    rw [hb]
    simp [find_bucket_entry_]
  | some chain =>
    rw [hash_map_has_key_eq_of_chain m key chain hb,
      hash_map_get_eq_of_chain m key chain hb]
    cases hf : chain.find? (fun e => m.keys_are_equal e.key key) with
    | none => simp
    | some e =>
      have hi : bucketIndex m key < m.bucket.length := by
        by_contra hcon
        rw [List.getD_eq_default _ _ (le_of_not_lt hcon)] at hb
        exact Option.noConfusion hb
      have hmem : e ∈ allEntries m :=
        mem_allEntries_of_chain hi hb (List.mem_of_find?_eq_some hf)
      simp [hdata e hmem]

/-- Witness for C9: on the one-entry sample map (whose only data reference
is `7`, non-null), `has_key 5` and `get 5` agree: both signal presence. -/
theorem has_key_iff_get_nonnull_witness :
    hash_map_has_key sampleMapOne 5 = true ↔ hash_map_get sampleMapOne 5 ≠ 0 :=
  has_key_iff_get_nonnull sampleMapOne 5 (by decide)

/-- Claim C10: confirmed.  A fully successful `hash_map_set` of a key
already present in its bucket's chain leaves that bucket's chain equal to
the old chain with the stale entry removed and the fresh entry appended at
the tail: the entry moves to the last position of the chain regardless of
its original position, so a later foreach reaches it after every other
entry of that bucket. -/
theorem set_existing_key_appends_at_tail (m : HashMapT) (key data : Nat)
    (chain : List Entry) (old : Entry)
    (hidx : bucketIndex m key < m.bucket.length)
    (hchain : m.bucket.getD (bucketIndex m key) none = some chain)
    (hfound : chain.find? (fun e => m.keys_are_equal e.key key) = some old) :
    (hash_map_set m key data true true true).map.bucket.getD
        (bucketIndex m key) none
      = some (chain.erase old ++ [Entry.mk key data]) := by
  have hb' : m.bucket[bucketIndex m key]?.getD none = some chain := by
    rw [← List.getD_eq_getElem?_getD]; exact hchain
  have hstep : hash_map_set m key data true true true = { map := { m with bucket := m.bucket.set (bucketIndex m key) (some (chain.erase old ++ [Entry.mk key data])) }, ok := true, freed := [old] } := by
    simp [hash_map_set, hb', hash_map_set_chain, hfound]
  rw [hstep]
  dsimp only
  rw [List.getD_eq_getElem?_getD,
    List.getElem?_set_self (by simpa using hidx)]
  rfl

/-- Witness for C10: overwriting colliding key `5` (stored first of two in
its bucket) with data `2` moves its entry behind the other entry of the
bucket: the chain becomes the other entry followed by the fresh one. -/
theorem set_existing_key_appends_at_tail_witness :
    (hash_map_set sampleMapTwo 5 2 true true true).map.bucket.getD
        (bucketIndex sampleMapTwo 5) none
      = some [Entry.mk 9 1, Entry.mk 5 2] :=
  set_existing_key_appends_at_tail sampleMapTwo 5 2
    [Entry.mk 5 7, Entry.mk 9 1] (Entry.mk 5 7) (by decide) rfl (by decide)
